import Mathlib

/-!
# CodeRunr core engine: verification of the execution, streaming and package layers

Shallow embedding of the Go sources of the coderunr service.  Each definition
mirrors one function (or one tight cluster of statements) of the source tree:

* `api/internal/job/job.go` — the job pipeline (`Job.Execute`,
  `Job.ExecuteStream`), stage finalization (`Job.safeCall`,
  `Job.safeCallStream`), box allocation (`Job.createIsolateBox`), streaming
  output with the shared budget (`Job.streamOutput`,
  `Job.triggerOutputLimitExceeded`) and batch buffering (`Job.readWithLimit`).
* the HTTP execute handler (`Handler.ExecuteCode`, `Handler.validateJobRequest`,
  `Handler.validateConstraints`).
* `api/internal/service/package.go` — the package installer
  (`PackageService.InstallPackage`, `PackageService.UninstallPackage`) and its
  interaction with the runtime registry of `api/internal/runtime/runtime.go`.

Byte strings are modelled as `List Char` (one `Char` per byte, `length` = byte
count); Go `int`/`int64` values are modelled as `Int` (with Go's truncated
remainder where `%` occurs); fallible calls return `Except String`.
External effects that the control flow branches on (download success, checksum
match, the metadata file produced by the `isolate` helper, the exit code of the
sandboxed process) enter the definitions as explicit parameters.
-/

namespace CodeRunr

/-! ## Data model (`types` package, fields as used by `job.go` and spec §6.2) -/

/-- Outcome of one stage, as assembled by `Job.safeCall` / `Job.safeCallStream`
(`types.StageResult`): `code` is the Go `*int` (null when a signal is present),
`signal` is the empty string when absent. -/
structure StageResult where
  stdout : List Char := []
  stderr : List Char := []
  output : List Char := []
  code : Option Int := none
  signal : String := ""
  memory : Int := 0
  cpuTime : Int := 0
  wallTime : Int := 0
  status : String := ""
  message : String := ""
deriving Repr, DecidableEq

/-- Result of `Job.Execute` (`types.ExecutionResult`): `compile` and `run` are
the Go pointers, absent = `none`.  The `limits` echo is omitted (not needed by
any claim). -/
structure ExecutionResult where
  language : String := ""
  version : String := ""
  compile : Option StageResult := none
  run : Option StageResult := none
deriving Repr, DecidableEq

/-- Parsed metadata file of the `isolate` helper (`isolateMetadata` in
`job.go`); `signal` is already mapped through `signalToString`, times are in
milliseconds as consumed by the stage finalization. -/
structure IsolateMetadata where
  memory : Int := 0
  exitCode : Int := 0
  signal : String := ""
  message : String := ""
  status : String := ""
  cpuTimeMs : Int := 0
  wallTimeMs : Int := 0
deriving Repr, DecidableEq

/-! ## Stage finalization (`job.go` lines 605–641 and 774–807)

After `cmd.Wait()` both `safeCall` and `safeCallStream` build the
`StageResult` from the exit code, the optional metadata, and whether
`cmd.Wait` returned an error.  The construction is embedded verbatim;
`cmdErr` is `err != nil` after `cmd.Wait()`. -/

/-- The `Job.safeCall` result assembly (batch mode, `job.go` 605–641). -/
def safeCallResult (stdoutBuf stderrBuf outputBuf : List Char) (exitCode : Int)
    (metadata : Option IsolateMetadata) (cmdErr : Bool) : StageResult :=
  let r : StageResult :=
    { stdout := stdoutBuf, stderr := stderrBuf, output := outputBuf, code := some exitCode }
  let r := match metadata with
    | some m =>
        { r with memory := m.memory, cpuTime := m.cpuTimeMs, wallTime := m.wallTimeMs,
                 status := m.status, message := m.message, signal := m.signal }
    | none => r
  let r := if r.status = "TO" ∨ r.status = "OL" ∨ r.status = "EL" then
      { r with signal := "SIGKILL" } else r
  let r := if r.signal ≠ "" then { r with code := none } else r
  if cmdErr ∧ r.status = "" then { r with status := "RE", message := "Runtime error" } else r

/-- The `Job.safeCallStream` result assembly (streaming mode, `job.go` 774–807);
identical to the batch version except that no output buffers are attached. -/
def safeCallStreamResult (exitCode : Int) (metadata : Option IsolateMetadata)
    (cmdErr : Bool) : StageResult :=
  let r : StageResult := { code := some exitCode }
  let r := match metadata with
    | some m =>
        { r with memory := m.memory, cpuTime := m.cpuTimeMs, wallTime := m.wallTimeMs,
                 status := m.status, message := m.message, signal := m.signal }
    | none => r
  let r := if r.status = "TO" ∨ r.status = "OL" ∨ r.status = "EL" then
      { r with signal := "SIGKILL" } else r
  let r := if r.signal ≠ "" then { r with code := none } else r
  if cmdErr ∧ r.status = "" then { r with status := "RE", message := "Runtime error" } else r

/-! ## The synchronous pipeline (`Job.Execute`, `job.go` 183–269) -/

/-- The compile-failure test of `Job.Execute` line 237:
`compileResult.Signal != "" || (compileResult.Code != nil && *compileResult.Code != 0)`. -/
def compileFailed (r : StageResult) : Bool :=
  r.signal != "" || (match r.code with | some c => c != 0 | none => false)

/-- The `Job.Execute` pipeline (`job.go` 183–269) with the effectful stage invocations
passed in as parameters: `compileCall` and `runCall` are what `safeCall`
returns for the two stages, `createRunBox` is the `createIsolateBox` call for
the run box and `moveSubmission` the `os.Rename` of `submission/`.  The
second component records whether the run stage was invoked. -/
def JobExecute (language version : String) (compiled : Bool)
    (compileCall : Except String StageResult)
    (createRunBox : Except String Unit)
    (moveSubmission : Except String Unit)
    (runCall : Except String StageResult) :
    Except String ExecutionResult × Bool :=
  let base : ExecutionResult := { language := language, version := version }
  if compiled then
    match compileCall with
    | .error e => (.error ("compile stage failed: " ++ e), false)
    | .ok compileResult =>
      let result := { base with compile := some compileResult }
      if compileFailed compileResult then
        (.ok result, false)
      else
        match createRunBox with
        | .error e => (.error ("failed to create run box: " ++ e), false)
        | .ok _ =>
          match moveSubmission with
          | .error e => (.error ("failed to move compiled files: " ++ e), false)
          | .ok _ =>
            match runCall with
            | .error e => (.error ("run stage failed: " ++ e), true)
            | .ok runResult => (.ok { result with run := some runResult }, true)
  else
    match runCall with
    | .error e => (.error ("run stage failed: " ++ e), true)
    | .ok runResult => (.ok { base with run := some runResult }, true)

/-! ## Box allocation (`Job.createIsolateBox`, `job.go` 431–454) -/

/-- The `MaxBoxID` constant of `job.go` line 30. -/
def MaxBoxID : Int := 999

/-- The box ID computed by `Job.createIsolateBox` line 432 from the
post-increment value of the process-wide counter:
`int(atomic.AddInt32(&boxIDCounter, 1) % MaxBoxID)`.  Go's `%` is the
truncated remainder, i.e. `Int.tmod`. -/
def createBoxID (counter : Int) : Int := Int.tmod counter MaxBoxID

/-! ## Line scanning (`bufio.Scanner` with `bufio.ScanLines`)

Both `Job.streamOutput` and `Job.readWithLimit` consume the pipes through a
`bufio.Scanner`, whose `ScanLines` split function yields each line without its
terminating `\n` (a `\r` immediately before the `\n`, or at end of input, is
dropped as well) and yields the final unterminated line if non-empty. -/

/-- The `dropCR` step of `bufio.ScanLines`: remove a single trailing carriage return. -/
def dropCR (l : List Char) : List Char :=
  if l.getLast? = some '\r' then l.dropLast else l

/-- Accumulating worker for `scanLines`; `cur` holds the current line reversed. -/
def scanLinesAux (cur : List Char) : List Char → List (List Char)
  | [] => if cur.isEmpty then [] else [dropCR cur.reverse]
  | c :: rest =>
    if c = '\n' then dropCR cur.reverse :: scanLinesAux [] rest
    else scanLinesAux (c :: cur) rest

/-- The token sequence a `bufio.Scanner` with `ScanLines` produces on `input`. -/
def scanLines (input : List Char) : List (List Char) := scanLinesAux [] input

/-! ## Streaming output with the shared budget
(`Job.streamOutput` 810–846, `Job.triggerOutputLimitExceeded` 848–858)

The two goroutines draining stdout and stderr share `outputSent` and the
`killOnce` guard through `outputMu`; each loop iteration handles one scanned
line inside the critical section, so any concurrent execution is one sequential
interleaving of per-line steps.  `killed` records that the `killOnce.Do` body
ran: it sends the single `error` event and calls `Process.Kill`.  Events are
modelled as delivered (the buffered `EventChannel` of `sendEvent` is abstracted
as lossless). -/

/-- The shared part of the streaming state: `Job.outputSent` and the
`Job.killOnce` flag. -/
structure StreamState where
  outputSent : Int
  killed : Bool
deriving Repr, DecidableEq

/-- Events on the `EventChannel` (`types.StreamEvent`), restricted to the tags
the driver emits during a stage. -/
inductive StreamEvent where
  | data (stream : String) (payload : List Char)
  | error (message : String)
  | stageStart (stage : String)
  | stageEnd (stage : String) (code : Int)
deriving Repr, DecidableEq

/-- The body of `Job.triggerOutputLimitExceeded` (`job.go` 848–858): under `killOnce`,
emit the error event once and kill the running process. -/
def triggerOutputLimitExceeded (st : StreamState) : StreamState × List StreamEvent :=
  if st.killed then (st, [])
  else ({ st with killed := true }, [.error "output limit exceeded"])

/-- One iteration of the scan loop of `Job.streamOutput` (`job.go` 813–845)
for a single line (terminator already stripped by the scanner).  Returns the
new shared state, the emitted events, and whether the goroutine keeps
scanning (`false` models the early `return`). -/
def streamLine (budget : Int) (st : StreamState) (stream : String) (line : List Char) :
    StreamState × List StreamEvent × Bool :=
  if budget > 0 then
    let remaining := budget - st.outputSent
    if remaining ≤ 0 then
      let p := triggerOutputLimitExceeded st
      (p.1, p.2, false)
    else if (line.length : Int) > remaining then
      let trimmed := line.take remaining.toNat
      let st₁ := { st with outputSent := st.outputSent + trimmed.length }
      let p := triggerOutputLimitExceeded st₁
      (p.1, .data stream trimmed :: p.2, false)
    else
      ({ st with outputSent := st.outputSent + line.length }, [.data stream line], true)
  else
    (st, [.data stream line], true)

/-- The `Job.streamOutput` loop for a single stream: fold `streamLine` over the scanned
lines, stopping when an iteration returns early. -/
def streamOutputLines (budget : Int) (st : StreamState) (stream : String) :
    List (List Char) → StreamState × List StreamEvent
  | [] => (st, [])
  | line :: rest =>
    let p := streamLine budget st stream line
    if p.2.2 then
      let q := streamOutputLines budget p.1 stream rest
      (q.1, p.2.1 ++ q.2)
    else (p.1, p.2.1)

/-- The `Job.streamOutput` loop applied to the raw bytes a process wrote to one pipe. -/
def streamOutput (budget : Int) (st : StreamState) (stream : String) (input : List Char) :
    StreamState × List StreamEvent :=
  streamOutputLines budget st stream (scanLines input)

/-- State of the two concurrently draining goroutines: the shared state plus a
stopped flag per goroutine (set once its loop returned early). -/
structure TwoStreamState where
  shared : StreamState
  stoppedStdout : Bool
  stoppedStderr : Bool
deriving Repr, DecidableEq

/-- Initial streaming state of a stage. -/
def initTwoStream : TwoStreamState :=
  { shared := { outputSent := 0, killed := false },
    stoppedStdout := false, stoppedStderr := false }

/-- One interleaved step: the goroutine named by `isStdout` handles its next
scanned line, unless it already returned early. -/
def streamStep (budget : Int) (t : TwoStreamState) (isStdout : Bool) (line : List Char) :
    TwoStreamState × List StreamEvent :=
  if (if isStdout then t.stoppedStdout else t.stoppedStderr) then (t, [])
  else
    let p := streamLine budget t.shared (if isStdout then "stdout" else "stderr") line
    if isStdout then
      ({ shared := p.1, stoppedStdout := !p.2.2, stoppedStderr := t.stoppedStderr }, p.2.1)
    else
      ({ shared := p.1, stoppedStdout := t.stoppedStdout, stoppedStderr := !p.2.2 }, p.2.1)

/-- An arbitrary interleaving of the two goroutines, line by line. -/
def streamRun (budget : Int) (t : TwoStreamState) :
    List (Bool × List Char) → TwoStreamState × List StreamEvent
  | [] => (t, [])
  | (isStdout, line) :: rest =>
    let p := streamStep budget t isStdout line
    let q := streamRun budget p.1 rest
    (q.1, p.2 ++ q.2)

/-- Events `Job.ExecuteStream` sends for the run stage (`job.go` 335–354):
`stage_start`, the events produced while the process runs, then `stage_end`
once `safeCallStream` has returned. -/
def runStageEvents (streamed : List StreamEvent) (code : Int) : List StreamEvent :=
  .stageStart "run" :: streamed ++ [.stageEnd "run" code]

/-- Total number of payload bytes carried by `data` events. -/
def dataBytes : List StreamEvent → Nat
  | [] => 0
  | .data _ payload :: rest => payload.length + dataBytes rest
  | _ :: rest => dataBytes rest

/-- Number of `error` events. -/
def errCount : List StreamEvent → Nat
  | [] => 0
  | .error _ :: rest => 1 + errCount rest
  | _ :: rest => errCount rest

/-- Concatenation of all `data` payloads, in emission order. -/
def dataPayloads : List StreamEvent → List Char
  | [] => []
  | .data _ payload :: rest => payload ++ dataPayloads rest
  | _ :: rest => dataPayloads rest

/-! ## Batch output buffering (`Job.readWithLimit`, `job.go` 860–873)

In batch mode `safeCall` starts one `readWithLimit` goroutine per stream
(`job.go` 590–594): the stream's own buffer (`stdoutBuf` / `stderrBuf`) is the
`targetBuf`, and both goroutines append to the shared `outputBuf`.  Each loop
iteration re-appends the terminator (`scanner.Text() + "\n"`) and writes only
while `targetBuf.Len()+len(line) <= OutputMaxSize`, breaking out otherwise. -/

/-- The three buffers of a batch stage plus a stopped flag per goroutine
(set when its loop hit the size check and broke). -/
structure BatchBuffers where
  stdoutBuf : List Char
  stderrBuf : List Char
  outputBuf : List Char
  stoppedStdout : Bool
  stoppedStderr : Bool
deriving Repr, DecidableEq

/-- Initial (empty) batch buffers. -/
def initBatchBuffers : BatchBuffers :=
  { stdoutBuf := [], stderrBuf := [], outputBuf := [],
    stoppedStdout := false, stoppedStderr := false }

/-- One iteration of the scan loop of `Job.readWithLimit` by the goroutine
named by `isStdout`, on one scanned line `l` (terminator re-appended as in
the source). -/
def readWithLimitStep (maxSize : Int) (b : BatchBuffers) (isStdout : Bool) (l : List Char) :
    BatchBuffers :=
  if (if isStdout then b.stoppedStdout else b.stoppedStderr) then b
  else
    let line := l ++ ['\n']
    let target := if isStdout then b.stdoutBuf else b.stderrBuf
    if ((target.length + line.length : Int)) ≤ maxSize then
      if isStdout then
        { b with stdoutBuf := b.stdoutBuf ++ line, outputBuf := b.outputBuf ++ line }
      else
        { b with stderrBuf := b.stderrBuf ++ line, outputBuf := b.outputBuf ++ line }
    else
      if isStdout then { b with stoppedStdout := true }
      else { b with stoppedStderr := true }

/-- An arbitrary interleaving of the two `readWithLimit` goroutines. -/
def batchRead (maxSize : Int) (b : BatchBuffers) : List (Bool × List Char) → BatchBuffers
  | [] => b
  | (isStdout, l) :: rest => batchRead maxSize (readWithLimitStep maxSize b isStdout l) rest

/-! ## The synchronous HTTP handler (`Handler.ExecuteCode` and validation) -/

/-- One file of a `types.JobRequest`. -/
structure JobRequestFile where
  name : String := ""
  content : String := ""
  encoding : String := ""
deriving Repr, DecidableEq

/-- The fields of `types.JobRequest` the handler branches on; optional
per-request limit overrides are the Go `*int` pointers (milliseconds, bytes). -/
structure JobRequest where
  language : String := ""
  version : String := ""
  files : List JobRequestFile := []
  compileTimeout : Option Int := none
  runTimeout : Option Int := none
  compileCPUTime : Option Int := none
  runCPUTime : Option Int := none
  compileMemoryLimit : Option Int := none
  runMemoryLimit : Option Int := none
deriving Repr, DecidableEq

/-- The fields of `types.Runtime` the handler and job model use.  Durations
are in milliseconds (the handler compares against `.Milliseconds()`). -/
structure Runtime where
  language : String := ""
  version : String := ""
  compiled : Bool := false
  timeoutCompile : Int := 0
  timeoutRun : Int := 0
  cpuTimeCompile : Int := 0
  cpuTimeRun : Int := 0
  memoryLimitCompile : Int := 0
  memoryLimitRun : Int := 0
  outputMaxSize : Int := 0
deriving Repr, DecidableEq

/-- The `Handler.validateJobRequest` check: shape checks on the request body. -/
def validateJobRequest (req : JobRequest) : Except String Unit :=
  if req.language = "" then .error "language is required as a string"
  else if req.version = "" then .error "version is required as a string"
  else if req.files.length = 0 then .error "files is required as an array"
  else match req.files.findIdx? (fun f => f.content = "") with
    | some i => .error ("files[" ++ toString i ++ "].content is required as a string")
    | none => .ok ()

/-- Body of the constraint loops of `Handler.validateConstraints`: skip when
the override is absent or the configured limit is non-positive, reject an
override above the limit, then reject a negative override. -/
def checkConstraint (name : String) (value : Option Int) (configLimit : Int) :
    Except String Unit :=
  match value with
  | none => .ok ()
  | some v =>
    if configLimit ≤ 0 then .ok ()
    else if v > configLimit then
      .error (name ++ " cannot exceed the configured limit of " ++ toString configLimit)
    else if v < 0 then .error (name ++ " must be non-negative")
    else .ok ()

/-- The constraint loop: first failing entry wins. -/
def checkConstraintList : List (String × Option Int × Int) → Except String Unit
  | [] => .ok ()
  | (name, value, limit) :: rest =>
    match checkConstraint name value limit with
    | .error e => .error e
    | .ok _ => checkConstraintList rest

/-- The `Handler.validateConstraints` check: the utf8-file check, the four time
constraints, then the two memory constraints. -/
def validateConstraints (req : JobRequest) (rt : Runtime) : Except String Unit :=
  if rt.language ≠ "file" ∧
      ¬ req.files.any (fun f => f.encoding = "" || f.encoding = "utf8") then
    .error "files must include at least one utf8 encoded file"
  else
    match checkConstraintList
        [("compile_timeout", req.compileTimeout, rt.timeoutCompile),
         ("run_timeout", req.runTimeout, rt.timeoutRun),
         ("compile_cpu_time", req.compileCPUTime, rt.cpuTimeCompile),
         ("run_cpu_time", req.runCPUTime, rt.cpuTimeRun)] with
    | .error e => .error e
    | .ok _ =>
      checkConstraintList
        [("compile_memory_limit", req.compileMemoryLimit, rt.memoryLimitCompile),
         ("run_memory_limit", req.runMemoryLimit, rt.memoryLimitRun)]

/-- What the handler writes back. -/
inductive HandlerResponse where
  | badRequest (message : String)
  | ok (result : ExecutionResult)
  | internalError
deriving Repr, DecidableEq

/-- The Piston backward-compatibility patch of `Handler.ExecuteCode`
(part_009 lines 87–90): `if result.Run == nil && result.Compile != nil
{ result.Run = result.Compile }`. -/
def patchRunForBackCompat (r : ExecutionResult) : ExecutionResult :=
  if r.run.isNone && r.compile.isSome then { r with run := r.compile } else r

/-- The `Handler.ExecuteCode` pipeline after body decoding: validation, runtime lookup,
constraint validation, then job creation and execution.  `lookup` stands for
`runtime.GetLatestRuntimeMatchingLanguageVersion` and `executeJob` for
`NewJob` + `Job.Execute` (which is where every sandbox box allocation
happens).  The Boolean records whether a job was created and executed. -/
def ExecuteCode (req : JobRequest) (lookup : Option Runtime)
    (executeJob : Runtime → Except String ExecutionResult) :
    HandlerResponse × Bool :=
  match validateJobRequest req with
  | .error e => (.badRequest e, false)
  | .ok _ =>
    match lookup with
    | none => (.badRequest (req.language ++ "-" ++ req.version ++ " runtime is unknown"), false)
    | some rt =>
      match validateConstraints req rt with
      | .error e => (.badRequest e, false)
      | .ok _ =>
        match executeJob rt with
        | .error _ => (.internalError, true)
        | .ok result => (.ok (patchRunForBackCompat result), true)

/-! ## Package installer and runtime registry
(`service/package.go` and `runtime/runtime.go`)

The on-disk state of a package directory
`<data>/packages/<language>/<version>/` is tracked per package: whether the
directory exists, whether `pkg.tar.gz` was written, whether the
`.ppman-installed` sentinel exists.  The runtime registry is the global
`runtimes` slice of `runtime.go`, keyed here by the package it was loaded
from.  Effectful outcomes (`downloadPackage`, `verifyChecksum`,
`extractPackage`, `loadPackage`) are passed in as flags. -/

/-- A `(language, version)` package key. -/
structure PkgId where
  language : String
  version : String
deriving Repr, DecidableEq

/-- Filesystem-plus-registry state relevant to install/uninstall. -/
structure PMState where
  dirs : List PkgId
  archives : List PkgId
  sentinels : List PkgId
  registry : List PkgId
deriving Repr, DecidableEq

/-- The `PackageService.IsInstalled` check: the `.ppman-installed` sentinel exists. -/
def pmIsInstalled (st : PMState) (p : PkgId) : Bool := st.sentinels.contains p

/-- The effect of `os.RemoveAll(installPath)`: the directory with everything in it
disappears; the registry is a separate in-memory structure and is untouched. -/
def removeAllPkg (st : PMState) (p : PkgId) : PMState :=
  { st with dirs := st.dirs.filter (· ≠ p),
            archives := st.archives.filter (· ≠ p),
            sentinels := st.sentinels.filter (· ≠ p) }

/-- Outcome of an installer call, keeping the final state on both paths. -/
inductive PMOutcome where
  | ok
  | err (message : String)
deriving Repr, DecidableEq

/-- The `PackageService.InstallPackage` flow (`package.go` 136–195): refuse when
installed, remove residue, create the directory, download, verify the
checksum, extract, write the sentinel, then `runtimeManager.LoadPackage`
(whose failure is only logged — the install still returns success). -/
def InstallPackage (st : PMState) (p : PkgId)
    (downloadOk checksumOk extractOk loadOk : Bool) : PMState × PMOutcome :=
  if pmIsInstalled st p then
    (st, .err ("package " ++ p.language ++ "-" ++ p.version ++ " is already installed"))
  else
    let st := if st.dirs.contains p then removeAllPkg st p else st
    let st := { st with dirs := p :: st.dirs }
    if !downloadOk then (st, .err "failed to download package")
    else
      let st := { st with archives := p :: st.archives }
      if !checksumOk then (st, .err "checksum verification failed: checksum mismatch")
      else if !extractOk then (st, .err "failed to extract package")
      else
        let st := { st with sentinels := p :: st.sentinels }
        let st := if loadOk then { st with registry := p :: st.registry } else st
        (st, .ok)

/-- The `PackageService.UninstallPackage` flow (`package.go` 197–214): confirm the
sentinel, then `os.RemoveAll` the directory.  No registry operation occurs
(the runtime manager of `runtime.go` has no removal entry point). -/
def UninstallPackage (st : PMState) (p : PkgId) : PMState × PMOutcome :=
  if !pmIsInstalled st p then
    (st, .err ("package " ++ p.language ++ "-" ++ p.version ++ " is not installed"))
  else
    (removeAllPkg st p, .ok)

/-! ## Theorems -/

/-- Helper: the compile-failure test is true when the signal is set or the
exit code is present and non-zero. -/
theorem compileFailed_true_of {cr : StageResult}
    (h : cr.signal ≠ "" ∨ ∃ c, cr.code = some c ∧ c ≠ 0) :
    compileFailed cr = true := by
  rcases h with h | ⟨c, hc, hne⟩
  · simp [compileFailed, h]
  · simp [compileFailed, hc, hne]

/-- C1: on a compiled runtime, if the compile stage ends with a non-zero exit
code or with a signal set, `Execute` returns `.ok` (not an engine error) with
`compile` set to the compile stage result and `run` absent, and the run stage
is never invoked. -/
theorem C1_compile_failure_short_circuits (language version : String)
    (cr : StageResult) (box move : Except String Unit)
    (runCall : Except String StageResult)
    (h : cr.signal ≠ "" ∨ ∃ c, cr.code = some c ∧ c ≠ 0) :
    JobExecute language version true (.ok cr) box move runCall =
      (.ok { language := language, version := version, compile := some cr, run := none },
       false) := by
  simp [JobExecute, compileFailed_true_of h]

/-- Witness for C1 at a concrete compile result with exit code 1. -/
theorem C1_witness :
    JobExecute "go" "1.16.2" true (.ok { code := some 1 }) (.ok ()) (.ok ())
        (.error "never reached") =
      (.ok { language := "go", version := "1.16.2", compile := some { code := some 1 },
             run := none }, false) :=
  C1_compile_failure_short_circuits "go" "1.16.2" { code := some 1 } (.ok ()) (.ok ())
    (.error "never reached") (Or.inr ⟨1, rfl, by decide⟩)

/-- C3: every `StageResult` assembled by `safeCall` or `safeCallStream` has
exactly one of `code` / `signal` present, and a metadata status of `TO`, `OL`
or `EL` forces `signal = "SIGKILL"` and `code = none`. -/
theorem C3_code_signal_exclusive (so se ob : List Char) (exitCode : Int)
    (metadata : Option IsolateMetadata) (cmdErr : Bool) :
    (((safeCallResult so se ob exitCode metadata cmdErr).signal = "" ∧
        (safeCallResult so se ob exitCode metadata cmdErr).code = some exitCode) ∨
      ((safeCallResult so se ob exitCode metadata cmdErr).signal ≠ "" ∧
        (safeCallResult so se ob exitCode metadata cmdErr).code = none)) ∧
    (((safeCallResult so se ob exitCode metadata cmdErr).status = "TO" ∨
        (safeCallResult so se ob exitCode metadata cmdErr).status = "OL" ∨
        (safeCallResult so se ob exitCode metadata cmdErr).status = "EL") →
      (safeCallResult so se ob exitCode metadata cmdErr).signal = "SIGKILL" ∧
        (safeCallResult so se ob exitCode metadata cmdErr).code = none) ∧
    (((safeCallStreamResult exitCode metadata cmdErr).signal = "" ∧
        (safeCallStreamResult exitCode metadata cmdErr).code = some exitCode) ∨
      ((safeCallStreamResult exitCode metadata cmdErr).signal ≠ "" ∧
        (safeCallStreamResult exitCode metadata cmdErr).code = none)) ∧
    (((safeCallStreamResult exitCode metadata cmdErr).status = "TO" ∨
        (safeCallStreamResult exitCode metadata cmdErr).status = "OL" ∨
        (safeCallStreamResult exitCode metadata cmdErr).status = "EL") →
      (safeCallStreamResult exitCode metadata cmdErr).signal = "SIGKILL" ∧
        (safeCallStreamResult exitCode metadata cmdErr).code = none) := by
  cases metadata <;>
    simp only [safeCallResult, safeCallStreamResult] <;>
    split_ifs <;> simp_all

/-- Witness for C3 at a `TO` metadata record. -/
theorem C3_witness :
    ((safeCallResult [] [] [] 0 (some { status := "TO" }) false).signal = "SIGKILL" ∧
      (safeCallResult [] [] [] 0 (some { status := "TO" }) false).code = none) ∧
    ((safeCallStreamResult 0 (some { status := "TO" }) false).signal = "SIGKILL" ∧
      (safeCallStreamResult 0 (some { status := "TO" }) false).code = none) := by
  have h := C3_code_signal_exclusive [] [] [] 0 (some { status := "TO" }) false
  exact ⟨h.2.1 (by decide), h.2.2.2 (by decide)⟩

/-- C4 counterexample: the claim says the box ID after counter value `n` is
`n mod 1000`; at counter value 999 the code computes
`999 % MaxBoxID = 999 % 999 = 0`, not `999 mod 1000 = 999`. -/
theorem C4_counterexample : createBoxID 999 ≠ 999 % 1000 := by decide

/-- C4 (amended): the counter is reduced modulo `MaxBoxID = 999` (not 1000),
so for every non-negative counter value `n` the assigned ID is `n mod 999`,
which lies in `[0, 998]`; ID 999 is never assigned. -/
theorem C4_boxID_mod_999 (n : Int) (hn : 0 ≤ n) :
    createBoxID n = n % 999 ∧ 0 ≤ createBoxID n ∧ createBoxID n < 999 := by
  have h : createBoxID n = n % 999 := by
    show Int.tmod n MaxBoxID = n % 999
    rw [show MaxBoxID = 999 from rfl]
    exact Int.tmod_eq_emod hn (by norm_num)
  refine ⟨h, ?_, ?_⟩
  · rw [h]; exact Int.emod_nonneg n (by norm_num)
  · rw [h]; exact Int.emod_lt_of_pos n (by norm_num)

/-- Witness for C4 at counter value 1000: ID `1000 mod 999 = 1`. -/
theorem C4_witness : createBoxID 1000 = 1000 % 999 ∧
    0 ≤ createBoxID 1000 ∧ createBoxID 1000 < 999 :=
  C4_boxID_mod_999 1000 (by decide)

/-- Helper: every `.ok` result of `JobExecute` either has `run` present, or
has `run` absent with `compile` present. -/
theorem JobExecute_ok_shape (language version : String) (compiled : Bool)
    (compileCall runCall : Except String StageResult) (box move : Except String Unit)
    (result : ExecutionResult) (ran : Bool)
    (h : JobExecute language version compiled compileCall box move runCall =
          (.ok result, ran)) :
    result.run.isSome ∨ (result.run = none ∧ result.compile.isSome) := by
  cases compiled <;> unfold JobExecute at h
  · cases runCall <;> simp_all
    obtain ⟨h1, _⟩ := h
    subst h1
    simp
  · cases compileCall with
    | error e => simp_all
    | ok cr =>
      simp only [if_true] at h
      by_cases hf : compileFailed cr
      · simp [hf] at h
        obtain ⟨h1, _⟩ := h
        subst h1
        simp
      · simp [hf] at h
        cases box <;> simp_all
        cases move <;> simp_all
        cases runCall <;> simp_all
        obtain ⟨h1, _⟩ := h
        subst h1
        simp

/-- C9: for every successful engine result, the handler's backward
compatibility patch makes the encoded `run` field non-null, and when the
engine returned `run` absent (failed compile) the patched `run` equals the
compile stage result. -/
theorem C9_wire_run_never_null (language version : String) (compiled : Bool)
    (compileCall runCall : Except String StageResult) (box move : Except String Unit)
    (result : ExecutionResult) (ran : Bool)
    (h : JobExecute language version compiled compileCall box move runCall =
          (.ok result, ran)) :
    (patchRunForBackCompat result).run.isSome ∧
    (result.run = none → (patchRunForBackCompat result).run = result.compile) := by
  rcases JobExecute_ok_shape language version compiled compileCall runCall box move
      result ran h with hs | ⟨hn, hc⟩
  · have hnn : ¬ result.run.isNone := by
      simp [Option.isNone_iff_eq_none]
      intro habs
      simp [habs] at hs
    constructor
    · unfold patchRunForBackCompat
      split_ifs with hif <;> simp_all
    · intro habs
      simp [habs] at hs
  · have hcond : (result.run.isNone && result.compile.isSome) = true := by
      simp [hn, hc]
    have hif : patchRunForBackCompat result = { result with run := result.compile } := by
      simp [patchRunForBackCompat, hcond]
    constructor
    · rw [hif]
      simpa using hc
    · intro _
      rw [hif]

/-- Witness for C9 at a concrete failed compile. -/
theorem C9_witness :
    (patchRunForBackCompat
        { language := "go", version := "1.16.2",
          compile := some { code := some 1 }, run := none }).run.isSome ∧
    (({ language := "go", version := "1.16.2", compile := some { code := some 1 },
        run := none } : ExecutionResult).run = none →
      (patchRunForBackCompat
          { language := "go", version := "1.16.2",
            compile := some { code := some 1 }, run := none }).run =
        some { code := some 1 }) :=
  C9_wire_run_never_null "go" "1.16.2" true (.ok { code := some 1 }) (.error "unused")
    (.ok ()) (.ok ())
    { language := "go", version := "1.16.2", compile := some { code := some 1 }, run := none }
    false rfl

/-- Helper: a single constraint check fails when the override exceeds a
positive configured limit. -/
theorem checkConstraint_error_of_exceeds (name : String) (v limit : Int)
    (hl : 0 < limit) (hv : limit < v) :
    checkConstraint name (some v) limit =
      .error (name ++ " cannot exceed the configured limit of " ++ toString limit) := by
  simp [checkConstraint, not_le.mpr hl, hv]

/-- Helper: the constraint loop fails when some entry has an override above
its positive configured limit. -/
theorem checkConstraintList_error_of_mem (cs : List (String × Option Int × Int))
    (name : String) (v limit : Int)
    (hmem : (name, some v, limit) ∈ cs) (hl : 0 < limit) (hv : limit < v) :
    ∃ e, checkConstraintList cs = .error e := by
  induction cs with
  | nil => simp at hmem
  | cons head rest ih =>
    rcases List.mem_cons.mp hmem with heq | hmem2
    · subst heq
      refine ⟨name ++ " cannot exceed the configured limit of " ++ toString limit, ?_⟩
      simp [checkConstraintList, checkConstraint_error_of_exceeds name v limit hl hv]
    · obtain ⟨n, val, l⟩ := head
      cases hchk : checkConstraint n val l with
      | error e => exact ⟨e, by simp [checkConstraintList, hchk]⟩
      | ok _ =>
        obtain ⟨e, he⟩ := ih hmem2
        exact ⟨e, by simp [checkConstraintList, hchk, he]⟩

/-- C7: a synchronous execute request with a per-request limit override
(timeout, cpu time, or memory; compile or run) exceeding the runtime's
positive configured maximum is answered with a validation error, and the job
is never created or executed — so no sandbox box is allocated. -/
theorem C7_override_rejected_before_allocation (req : JobRequest) (rt : Runtime)
    (executeJob : Runtime → Except String ExecutionResult)
    (h : (∃ v, req.compileTimeout = some v ∧ 0 < rt.timeoutCompile ∧ rt.timeoutCompile < v) ∨
         (∃ v, req.runTimeout = some v ∧ 0 < rt.timeoutRun ∧ rt.timeoutRun < v) ∨
         (∃ v, req.compileCPUTime = some v ∧ 0 < rt.cpuTimeCompile ∧ rt.cpuTimeCompile < v) ∨
         (∃ v, req.runCPUTime = some v ∧ 0 < rt.cpuTimeRun ∧ rt.cpuTimeRun < v) ∨
         (∃ v, req.compileMemoryLimit = some v ∧ 0 < rt.memoryLimitCompile ∧
            rt.memoryLimitCompile < v) ∨
         (∃ v, req.runMemoryLimit = some v ∧ 0 < rt.memoryLimitRun ∧ rt.memoryLimitRun < v)) :
    ∃ msg, ExecuteCode req (some rt) executeJob = (.badRequest msg, false) := by
  cases hvr : validateJobRequest req with
  | error e => exact ⟨e, by simp [ExecuteCode, hvr]⟩
  | ok u =>
    cases hvc : validateConstraints req rt with
    | error e => exact ⟨e, by simp [ExecuteCode, hvr, hvc]⟩
    | ok w =>
      exfalso
      unfold validateConstraints at hvc
      by_cases hutf : rt.language ≠ "file" ∧
          ¬ req.files.any (fun f => f.encoding = "" || f.encoding = "utf8")
      · rw [if_pos hutf] at hvc
        exact Except.noConfusion hvc
      · rw [if_neg hutf] at hvc
        cases htime : checkConstraintList
            [("compile_timeout", req.compileTimeout, rt.timeoutCompile),
             ("run_timeout", req.runTimeout, rt.timeoutRun),
             ("compile_cpu_time", req.compileCPUTime, rt.cpuTimeCompile),
             ("run_cpu_time", req.runCPUTime, rt.cpuTimeRun)] with
        | error e => rw [htime] at hvc; exact Except.noConfusion hvc
        | ok u2 =>
          rw [htime] at hvc
          have hmemlist : checkConstraintList
              [("compile_memory_limit", req.compileMemoryLimit, rt.memoryLimitCompile),
               ("run_memory_limit", req.runMemoryLimit, rt.memoryLimitRun)] = .ok () := hvc
          rcases h with ⟨v, hs, hl, hv⟩ | ⟨v, hs, hl, hv⟩ | ⟨v, hs, hl, hv⟩ |
              ⟨v, hs, hl, hv⟩ | ⟨v, hs, hl, hv⟩ | ⟨v, hs, hl, hv⟩
          · obtain ⟨e, he⟩ := checkConstraintList_error_of_mem
              [("compile_timeout", req.compileTimeout, rt.timeoutCompile),
               ("run_timeout", req.runTimeout, rt.timeoutRun),
               ("compile_cpu_time", req.compileCPUTime, rt.cpuTimeCompile),
               ("run_cpu_time", req.runCPUTime, rt.cpuTimeRun)]
              "compile_timeout" v rt.timeoutCompile (by simp [hs]) hl hv
            rw [he] at htime; exact Except.noConfusion htime
          · obtain ⟨e, he⟩ := checkConstraintList_error_of_mem
              [("compile_timeout", req.compileTimeout, rt.timeoutCompile),
               ("run_timeout", req.runTimeout, rt.timeoutRun),
               ("compile_cpu_time", req.compileCPUTime, rt.cpuTimeCompile),
               ("run_cpu_time", req.runCPUTime, rt.cpuTimeRun)]
              "run_timeout" v rt.timeoutRun (by simp [hs]) hl hv
            rw [he] at htime; exact Except.noConfusion htime
          · obtain ⟨e, he⟩ := checkConstraintList_error_of_mem
              [("compile_timeout", req.compileTimeout, rt.timeoutCompile),
               ("run_timeout", req.runTimeout, rt.timeoutRun),
               ("compile_cpu_time", req.compileCPUTime, rt.cpuTimeCompile),
               ("run_cpu_time", req.runCPUTime, rt.cpuTimeRun)]
              "compile_cpu_time" v rt.cpuTimeCompile (by simp [hs]) hl hv
            rw [he] at htime; exact Except.noConfusion htime
          · obtain ⟨e, he⟩ := checkConstraintList_error_of_mem
              [("compile_timeout", req.compileTimeout, rt.timeoutCompile),
               ("run_timeout", req.runTimeout, rt.timeoutRun),
               ("compile_cpu_time", req.compileCPUTime, rt.cpuTimeCompile),
               ("run_cpu_time", req.runCPUTime, rt.cpuTimeRun)]
              "run_cpu_time" v rt.cpuTimeRun (by simp [hs]) hl hv
            rw [he] at htime; exact Except.noConfusion htime
          · obtain ⟨e, he⟩ := checkConstraintList_error_of_mem
              [("compile_memory_limit", req.compileMemoryLimit, rt.memoryLimitCompile),
               ("run_memory_limit", req.runMemoryLimit, rt.memoryLimitRun)]
              "compile_memory_limit" v rt.memoryLimitCompile (by simp [hs]) hl hv
            rw [he] at hmemlist; exact Except.noConfusion hmemlist
          · obtain ⟨e, he⟩ := checkConstraintList_error_of_mem
              [("compile_memory_limit", req.compileMemoryLimit, rt.memoryLimitCompile),
               ("run_memory_limit", req.runMemoryLimit, rt.memoryLimitRun)]
              "run_memory_limit" v rt.memoryLimitRun (by simp [hs]) hl hv
            rw [he] at hmemlist; exact Except.noConfusion hmemlist

/-- Witness for C7: a request whose `run_timeout` override (99999 ms) exceeds
the configured 3000 ms maximum is rejected without executing a job. -/
theorem C7_witness :
    ∃ msg, ExecuteCode
        { language := "python", version := "3.12.0",
          files := [{ content := "x" }], runTimeout := some 99999 }
        (some { language := "python", version := "3.12.0", timeoutRun := 3000 })
        (fun _ => .error "job ran") =
      (.badRequest msg, false) :=
  C7_override_rejected_before_allocation
    { language := "python", version := "3.12.0",
      files := [{ content := "x" }], runTimeout := some 99999 }
    { language := "python", version := "3.12.0", timeoutRun := 3000 }
    (fun _ => .error "job ran")
    (Or.inr (Or.inl ⟨99999, rfl, by decide, by decide⟩))

/-- C5 counterexample: from a state where `go-1.16.2` is installed and loaded,
`UninstallPackage` returns success and deletes the sentinel, but the runtime
is still in the registry — the registry does not reflect the on-disk state
after a successful uninstall. -/
theorem C5_counterexample :
    (UninstallPackage
        { dirs := [⟨"go", "1.16.2"⟩], archives := [⟨"go", "1.16.2"⟩],
          sentinels := [⟨"go", "1.16.2"⟩], registry := [⟨"go", "1.16.2"⟩] }
        ⟨"go", "1.16.2"⟩).2 = .ok ∧
    (⟨"go", "1.16.2"⟩ : PkgId) ∉
      (UninstallPackage
        { dirs := [⟨"go", "1.16.2"⟩], archives := [⟨"go", "1.16.2"⟩],
          sentinels := [⟨"go", "1.16.2"⟩], registry := [⟨"go", "1.16.2"⟩] }
        ⟨"go", "1.16.2"⟩).1.sentinels ∧
    (⟨"go", "1.16.2"⟩ : PkgId) ∈
      (UninstallPackage
        { dirs := [⟨"go", "1.16.2"⟩], archives := [⟨"go", "1.16.2"⟩],
          sentinels := [⟨"go", "1.16.2"⟩], registry := [⟨"go", "1.16.2"⟩] }
        ⟨"go", "1.16.2"⟩).1.registry := by decide

/-- C5 (amended): a successful install whose registry load succeeds makes the
new runtime resolvable (it is appended to the registry) and marks the package
installed on disk; a successful uninstall deletes the on-disk package but
leaves the registry completely unchanged — the stale runtime entry survives
until the process restarts. -/
theorem C5_registry_semantics (st : PMState) (p : PkgId) (dOk cOk eOk : Bool)
    (hok : (InstallPackage st p dOk cOk eOk true).2 = .ok)
    (st₂ : PMState) (q : PkgId)
    (hok₂ : (UninstallPackage st₂ q).2 = .ok) :
    p ∈ (InstallPackage st p dOk cOk eOk true).1.registry ∧
    p ∈ (InstallPackage st p dOk cOk eOk true).1.sentinels ∧
    (UninstallPackage st₂ q).1.registry = st₂.registry ∧
    q ∉ (UninstallPackage st₂ q).1.sentinels := by
  have hinst : p ∈ (InstallPackage st p dOk cOk eOk true).1.registry ∧
      p ∈ (InstallPackage st p dOk cOk eOk true).1.sentinels := by
    by_cases hi : pmIsInstalled st p <;> cases hdl : st.dirs.contains p <;>
      cases dOk <;> cases cOk <;> cases eOk <;>
      simp_all [InstallPackage]
  have huni : (UninstallPackage st₂ q).1.registry = st₂.registry ∧
      q ∉ (UninstallPackage st₂ q).1.sentinels := by
    by_cases hq : pmIsInstalled st₂ q
    · simp [UninstallPackage, hq, removeAllPkg]
    · simp [UninstallPackage, hq] at hok₂
  exact ⟨hinst.1, hinst.2, huni.1, huni.2⟩

/-- Witness for C5 at a concrete install of `python-3.12.0` into an empty
state and a concrete uninstall of an installed `go-1.16.2`. -/
theorem C5_witness :
    (⟨"python", "3.12.0"⟩ : PkgId) ∈
      (InstallPackage { dirs := [], archives := [], sentinels := [], registry := [] }
        ⟨"python", "3.12.0"⟩ true true true true).1.registry ∧
    (⟨"python", "3.12.0"⟩ : PkgId) ∈
      (InstallPackage { dirs := [], archives := [], sentinels := [], registry := [] }
        ⟨"python", "3.12.0"⟩ true true true true).1.sentinels ∧
    (UninstallPackage
        { dirs := [⟨"go", "1.16.2"⟩], archives := [], sentinels := [⟨"go", "1.16.2"⟩],
          registry := [⟨"go", "1.16.2"⟩] } ⟨"go", "1.16.2"⟩).1.registry =
      ({ dirs := [⟨"go", "1.16.2"⟩], archives := [], sentinels := [⟨"go", "1.16.2"⟩],
         registry := [⟨"go", "1.16.2"⟩] } : PMState).registry ∧
    (⟨"go", "1.16.2"⟩ : PkgId) ∉
      (UninstallPackage
        { dirs := [⟨"go", "1.16.2"⟩], archives := [], sentinels := [⟨"go", "1.16.2"⟩],
          registry := [⟨"go", "1.16.2"⟩] } ⟨"go", "1.16.2"⟩).1.sentinels :=
  C5_registry_semantics
    { dirs := [], archives := [], sentinels := [], registry := [] }
    ⟨"python", "3.12.0"⟩ true true true (by decide)
    { dirs := [⟨"go", "1.16.2"⟩], archives := [], sentinels := [⟨"go", "1.16.2"⟩],
      registry := [⟨"go", "1.16.2"⟩] }
    ⟨"go", "1.16.2"⟩ (by decide)

/-- C6 counterexample: installing `python-3.12.0` into an empty state with a
checksum mismatch fails with a checksum error, but the install directory (and
the downloaded archive in it) is still on disk after the call — the claim
that the directory is deleted is false. -/
theorem C6_counterexample :
    (InstallPackage { dirs := [], archives := [], sentinels := [], registry := [] }
        ⟨"python", "3.12.0"⟩ true false true true).2 =
      .err "checksum verification failed: checksum mismatch" ∧
    (⟨"python", "3.12.0"⟩ : PkgId) ∈
      (InstallPackage { dirs := [], archives := [], sentinels := [], registry := [] }
        ⟨"python", "3.12.0"⟩ true false true true).1.dirs ∧
    (⟨"python", "3.12.0"⟩ : PkgId) ∈
      (InstallPackage { dirs := [], archives := [], sentinels := [], registry := [] }
        ⟨"python", "3.12.0"⟩ true false true true).1.archives := by decide

/-- C6 (amended): when the downloaded archive's checksum differs from the
index checksum, install fails with a checksum error, no installed sentinel is
written and the registry is untouched — but the install directory with the
downloaded archive is left on disk (it is only removed as residue at the
start of the next install attempt). -/
theorem C6_checksum_mismatch_leaves_directory (st : PMState) (p : PkgId)
    (eOk lOk : Bool) (hni : pmIsInstalled st p = false) :
    (InstallPackage st p true false eOk lOk).2 =
      .err "checksum verification failed: checksum mismatch" ∧
    p ∈ (InstallPackage st p true false eOk lOk).1.dirs ∧
    p ∈ (InstallPackage st p true false eOk lOk).1.archives ∧
    pmIsInstalled (InstallPackage st p true false eOk lOk).1 p = false ∧
    (InstallPackage st p true false eOk lOk).1.registry = st.registry := by
  by_cases hdl : st.dirs.contains p <;>
    simp_all [InstallPackage, pmIsInstalled, removeAllPkg]

/-- Witness for C6 at a state that already has residual files for the
package. -/
theorem C6_witness :
    pmIsInstalled
        { dirs := [⟨"python", "3.12.0"⟩], archives := [⟨"python", "3.12.0"⟩],
          sentinels := [], registry := [] } ⟨"python", "3.12.0"⟩ = false ∧
    (InstallPackage
        { dirs := [⟨"python", "3.12.0"⟩], archives := [⟨"python", "3.12.0"⟩],
          sentinels := [], registry := [] }
        ⟨"python", "3.12.0"⟩ true false true true).2 =
      .err "checksum verification failed: checksum mismatch" ∧
    (⟨"python", "3.12.0"⟩ : PkgId) ∈
      (InstallPackage
        { dirs := [⟨"python", "3.12.0"⟩], archives := [⟨"python", "3.12.0"⟩],
          sentinels := [], registry := [] }
        ⟨"python", "3.12.0"⟩ true false true true).1.dirs :=
  ⟨by decide,
   (C6_checksum_mismatch_leaves_directory
      { dirs := [⟨"python", "3.12.0"⟩], archives := [⟨"python", "3.12.0"⟩],
        sentinels := [], registry := [] }
      ⟨"python", "3.12.0"⟩ true true (by decide)).1,
   (C6_checksum_mismatch_leaves_directory
      { dirs := [⟨"python", "3.12.0"⟩], archives := [⟨"python", "3.12.0"⟩],
        sentinels := [], registry := [] }
      ⟨"python", "3.12.0"⟩ true true (by decide)).2.1⟩

/-- Helper: one `readWithLimit` iteration keeps each stream buffer within
`maxSize` and keeps the combined buffer the exact concatenation (byte count)
of the two stream buffers. -/
theorem readWithLimitStep_invariant (maxSize : Int) (b : BatchBuffers)
    (isStdout : Bool) (l : List Char)
    (hso : (b.stdoutBuf.length : Int) ≤ maxSize)
    (hse : (b.stderrBuf.length : Int) ≤ maxSize)
    (hout : b.outputBuf.length = b.stdoutBuf.length + b.stderrBuf.length) :
    ((readWithLimitStep maxSize b isStdout l).stdoutBuf.length : Int) ≤ maxSize ∧
    ((readWithLimitStep maxSize b isStdout l).stderrBuf.length : Int) ≤ maxSize ∧
    (readWithLimitStep maxSize b isStdout l).outputBuf.length =
      (readWithLimitStep maxSize b isStdout l).stdoutBuf.length +
        (readWithLimitStep maxSize b isStdout l).stderrBuf.length := by
  cases isStdout <;>
    simp only [readWithLimitStep, List.length_append, if_true, if_false] <;>
    split_ifs <;> simp_all [List.length_append] <;> omega

/-- Helper: the batch buffer invariant is preserved by any interleaving. -/
theorem batchRead_invariant (maxSize : Int) (steps : List (Bool × List Char))
    (b : BatchBuffers)
    (hso : (b.stdoutBuf.length : Int) ≤ maxSize)
    (hse : (b.stderrBuf.length : Int) ≤ maxSize)
    (hout : b.outputBuf.length = b.stdoutBuf.length + b.stderrBuf.length) :
    ((batchRead maxSize b steps).stdoutBuf.length : Int) ≤ maxSize ∧
    ((batchRead maxSize b steps).stderrBuf.length : Int) ≤ maxSize ∧
    (batchRead maxSize b steps).outputBuf.length =
      (batchRead maxSize b steps).stdoutBuf.length +
        (batchRead maxSize b steps).stderrBuf.length := by
  induction steps generalizing b with
  | nil => exact ⟨hso, hse, hout⟩
  | cons s rest ih =>
    obtain ⟨isStdout, l⟩ := s
    have h := readWithLimitStep_invariant maxSize b isStdout l hso hse hout
    exact ih (readWithLimitStep maxSize b isStdout l) h.1 h.2.1 h.2.2

/-- C8 counterexample: with `output_max_bytes = 2`, one 1-byte stdout line
and one 1-byte stderr line each pass their own buffer's check, so the
combined output buffer reaches 4 bytes — the claim that the combined buffer
also stays within `output_max_bytes` is false. -/
theorem C8_counterexample :
    ¬ (((batchRead 2 initBatchBuffers [(true, ['a']), (false, ['b'])]).outputBuf.length : Int)
        ≤ 2) := by decide

/-- C8 (amended): in batch mode the stdout buffer and the stderr buffer each
stay within `output_max_bytes` (overflow stops further reads of that stream),
and the combined output buffer is exactly the interleaved content of the two,
hence bounded by `2 * output_max_bytes` — not by `output_max_bytes` itself
(its size check is against the target stream buffer only). -/
theorem C8_buffer_bounds (maxSize : Int) (h : 0 ≤ maxSize)
    (steps : List (Bool × List Char)) :
    ((batchRead maxSize initBatchBuffers steps).stdoutBuf.length : Int) ≤ maxSize ∧
    ((batchRead maxSize initBatchBuffers steps).stderrBuf.length : Int) ≤ maxSize ∧
    (batchRead maxSize initBatchBuffers steps).outputBuf.length =
      (batchRead maxSize initBatchBuffers steps).stdoutBuf.length +
        (batchRead maxSize initBatchBuffers steps).stderrBuf.length ∧
    ((batchRead maxSize initBatchBuffers steps).outputBuf.length : Int) ≤ 2 * maxSize := by
  have hinv := batchRead_invariant maxSize steps initBatchBuffers
    (by simpa [initBatchBuffers] using h) (by simpa [initBatchBuffers] using h)
    (by simp [initBatchBuffers])
  refine ⟨hinv.1, hinv.2.1, hinv.2.2, ?_⟩
  have h1 := hinv.1
  have h2 := hinv.2.1
  have h3 := hinv.2.2
  omega

/-- Witness for C8 at `output_max_bytes = 2` with the counterexample trace. -/
theorem C8_witness :
    (0 : Int) ≤ 2 ∧
    (((batchRead 2 initBatchBuffers [(true, ['a']), (false, ['b'])]).stdoutBuf.length : Int)
        ≤ 2 ∧
      ((batchRead 2 initBatchBuffers [(true, ['a']), (false, ['b'])]).stderrBuf.length : Int)
        ≤ 2 ∧
      (batchRead 2 initBatchBuffers [(true, ['a']), (false, ['b'])]).outputBuf.length =
        (batchRead 2 initBatchBuffers [(true, ['a']), (false, ['b'])]).stdoutBuf.length +
          (batchRead 2 initBatchBuffers [(true, ['a']), (false, ['b'])]).stderrBuf.length ∧
      ((batchRead 2 initBatchBuffers [(true, ['a']), (false, ['b'])]).outputBuf.length : Int)
        ≤ 2 * 2) :=
  ⟨by decide, C8_buffer_bounds 2 (by decide) [(true, ['a']), (false, ['b'])]⟩

/-- Helper: `dataBytes` distributes over concatenation. -/
theorem dataBytes_append (xs ys : List StreamEvent) :
    dataBytes (xs ++ ys) = dataBytes xs + dataBytes ys := by
  induction xs with
  | nil => simp [dataBytes]
  | cons x rest ih => cases x <;> simp [dataBytes, ih] <;> omega

/-- Helper: `errCount` distributes over concatenation. -/
theorem errCount_append (xs ys : List StreamEvent) :
    errCount (xs ++ ys) = errCount xs + errCount ys := by
  induction xs with
  | nil => simp [errCount]
  | cons x rest ih => cases x <;> simp [errCount, ih] <;> omega

/-- Helper: one `streamOutput` iteration keeps `outputSent` equal to the
total data bytes emitted so far and below the budget, forces
`outputSent = budget` whenever the kill was triggered, and emits the error
event exactly on the step that triggers the kill. -/
theorem streamLine_invariant (budget : Int) (hb : 0 < budget) (st : StreamState)
    (stream : String) (line : List Char)
    (h1 : st.outputSent ≤ budget)
    (h2 : st.killed = true → st.outputSent = budget) :
    (streamLine budget st stream line).1.outputSent =
      st.outputSent + (dataBytes (streamLine budget st stream line).2.1 : Int) ∧
    (streamLine budget st stream line).1.outputSent ≤ budget ∧
    ((streamLine budget st stream line).1.killed = true →
      (streamLine budget st stream line).1.outputSent = budget) ∧
    errCount (streamLine budget st stream line).2.1 =
      (if (streamLine budget st stream line).1.killed = true ∧ st.killed = false
        then 1 else 0) ∧
    (st.killed = true → (streamLine budget st stream line).1.killed = true) := by
  simp only [streamLine, triggerOutputLimitExceeded]
  rw [if_pos hb]
  by_cases hrem : budget - st.outputSent ≤ 0
  · rw [if_pos hrem]
    have hsent : st.outputSent = budget := le_antisymm h1 (by omega)
    by_cases hk : st.killed = true
    · rw [if_pos hk]
      simp [dataBytes, errCount, hk, hsent]
    · have hkf : st.killed = false := by revert hk; cases st.killed <;> simp
      rw [if_neg hk]
      simp [dataBytes, errCount, hsent, hkf]
  · have hknot : st.killed = false := by
      cases hkk : st.killed
      · rfl
      · exact absurd (h2 hkk) (by omega)
    rw [if_neg hrem]
    by_cases hlen : (line.length : Int) > budget - st.outputSent
    · rw [if_pos hlen]
      rw [if_neg (show ¬ (st.killed = true) by simp [hknot])]
      simp [dataBytes, errCount, hknot, List.length_take]
      omega
    · rw [if_neg hlen]
      simp [dataBytes, errCount, hknot]
      omega

/-- Helper: the per-line invariant lifted to one interleaved step of the two
draining goroutines. -/
theorem streamStep_invariant (budget : Int) (hb : 0 < budget) (t : TwoStreamState)
    (isStdout : Bool) (line : List Char)
    (h1 : t.shared.outputSent ≤ budget)
    (h2 : t.shared.killed = true → t.shared.outputSent = budget) :
    (streamStep budget t isStdout line).1.shared.outputSent =
      t.shared.outputSent + (dataBytes (streamStep budget t isStdout line).2 : Int) ∧
    (streamStep budget t isStdout line).1.shared.outputSent ≤ budget ∧
    ((streamStep budget t isStdout line).1.shared.killed = true →
      (streamStep budget t isStdout line).1.shared.outputSent = budget) ∧
    errCount (streamStep budget t isStdout line).2 =
      (if (streamStep budget t isStdout line).1.shared.killed = true ∧
          t.shared.killed = false then 1 else 0) ∧
    (t.shared.killed = true → (streamStep budget t isStdout line).1.shared.killed = true) := by
  unfold streamStep
  by_cases hstop : (if isStdout then t.stoppedStdout else t.stoppedStderr) = true
  · rw [if_pos hstop]
    simp [dataBytes, errCount, h1, h2]
    cases hk : t.shared.killed <;> simp_all
  · rw [if_neg hstop]
    have h := streamLine_invariant budget hb t.shared
      (if isStdout then "stdout" else "stderr") line h1 h2
    cases isStdout <;> simp only [if_true, if_false] <;>
      exact ⟨h.1, h.2.1, h.2.2.1, h.2.2.2.1, h.2.2.2.2⟩

/-- Helper: the streaming budget invariant over any interleaving of the two
goroutines: `outputSent` equals the data bytes delivered, never exceeds the
budget, equals the budget exactly when the kill was triggered, and the error
event is emitted exactly once on the run that triggers the kill. -/
theorem streamRun_invariant (budget : Int) (hb : 0 < budget)
    (steps : List (Bool × List Char)) (t : TwoStreamState)
    (h1 : t.shared.outputSent ≤ budget)
    (h2 : t.shared.killed = true → t.shared.outputSent = budget) :
    (streamRun budget t steps).1.shared.outputSent =
      t.shared.outputSent + (dataBytes (streamRun budget t steps).2 : Int) ∧
    (streamRun budget t steps).1.shared.outputSent ≤ budget ∧
    ((streamRun budget t steps).1.shared.killed = true →
      (streamRun budget t steps).1.shared.outputSent = budget) ∧
    errCount (streamRun budget t steps).2 =
      (if (streamRun budget t steps).1.shared.killed = true ∧
          t.shared.killed = false then 1 else 0) ∧
    (t.shared.killed = true → (streamRun budget t steps).1.shared.killed = true) := by
  induction steps generalizing t with
  | nil =>
    simp [streamRun, dataBytes, errCount, h1, h2]
    cases hk : t.shared.killed <;> simp_all
  | cons s rest ih =>
    obtain ⟨isStdout, line⟩ := s
    have hstep := streamStep_invariant budget hb t isStdout line h1 h2
    have hrest := ih (streamStep budget t isStdout line).1 hstep.2.1 hstep.2.2.1
    have hunf : streamRun budget t ((isStdout, line) :: rest) =
        ((streamRun budget (streamStep budget t isStdout line).1 rest).1,
         (streamStep budget t isStdout line).2 ++
           (streamRun budget (streamStep budget t isStdout line).1 rest).2) := rfl
    rw [hunf]
    refine ⟨?_, hrest.2.1, hrest.2.2.1, ?_, ?_⟩
    · rw [dataBytes_append]
      push_cast
      omega
    · rw [errCount_append]
      have hm1 := hstep.2.2.2.2
      have hm2 := hrest.2.2.2.2
      have he1 := hstep.2.2.2.1
      have he2 := hrest.2.2.2.1
      cases hk0 : t.shared.killed <;>
        cases hk1 : (streamStep budget t isStdout line).1.shared.killed <;>
        cases hk2 : (streamRun budget (streamStep budget t isStdout line).1 rest).1.shared.killed <;>
        simp_all
    · intro hk0
      exact hrest.2.2.2.2 (hstep.2.2.2.2 hk0)

/-- C2: over any interleaving of the two draining goroutines of a streaming
stage with a positive output budget, the total bytes carried by `data` events
never exceed the budget; at most one error event is emitted, and exactly one
(with `outputSent` pinned to the budget and the process killed) when the
limit is hit; a line that would overflow the remaining budget is delivered as
the trimmed prefix that exactly reaches the budget, followed by the single
`error("output limit exceeded")` event; and `stage_end` for the started stage
is still emitted after the streamed events. -/
theorem C2_streaming_output_budget (budget : Int) (hb : 0 < budget)
    (steps : List (Bool × List Char)) (code : Int) :
    (dataBytes (streamRun budget initTwoStream steps).2 : Int) ≤ budget ∧
    errCount (streamRun budget initTwoStream steps).2 ≤ 1 ∧
    ((streamRun budget initTwoStream steps).1.shared.killed = true →
      errCount (streamRun budget initTwoStream steps).2 = 1 ∧
      (streamRun budget initTwoStream steps).1.shared.outputSent = budget) ∧
    (∀ (st : StreamState) (stream : String) (line : List Char),
      st.killed = false → st.outputSent < budget →
      budget - st.outputSent < (line.length : Int) →
      (streamLine budget st stream line).1.outputSent = budget ∧
      (streamLine budget st stream line).1.killed = true ∧
      (streamLine budget st stream line).2.1 =
        [.data stream (line.take (budget - st.outputSent).toNat),
         .error "output limit exceeded"]) ∧
    StreamEvent.stageEnd "run" code ∈
      runStageEvents (streamRun budget initTwoStream steps).2 code := by
  have hinv := streamRun_invariant budget hb steps initTwoStream
    (by simp [initTwoStream]; omega) (by simp [initTwoStream])
  simp only [initTwoStream] at hinv ⊢
  have hsent := hinv.1
  have hle := hinv.2.1
  have hkill := hinv.2.2.1
  have herr := hinv.2.2.2.1
  refine ⟨by omega, ?_, ?_, ?_, ?_⟩
  · rw [herr]
    split_ifs <;> omega
  · intro hk
    refine ⟨?_, hkill hk⟩
    rw [herr]
    simp [hk]
  · intro st stream line hkf hlt hlen
    simp only [streamLine, triggerOutputLimitExceeded]
    rw [if_pos hb, if_neg (show ¬ (budget - st.outputSent ≤ 0) by omega),
      if_pos (show (line.length : Int) > budget - st.outputSent by omega)]
    rw [if_neg (show ¬ (st.killed = true) by simp [hkf])]
    refine ⟨?_, rfl, rfl⟩
    simp [List.length_take]
    omega
  · simp [runStageEvents]

/-- Witness for C2: budget 5, a 3-byte stdout line followed by a 4-byte
stderr line (trimmed to 2 bytes). -/
theorem C2_witness :
    (0 : Int) < 5 ∧
    (dataBytes (streamRun 5 initTwoStream
        [(true, ['a', 'b', 'c']), (false, ['d', 'e', 'f', 'g'])]).2 : Int) ≤ 5 ∧
    errCount (streamRun 5 initTwoStream
        [(true, ['a', 'b', 'c']), (false, ['d', 'e', 'f', 'g'])]).2 ≤ 1 ∧
    ((streamRun 5 initTwoStream
        [(true, ['a', 'b', 'c']), (false, ['d', 'e', 'f', 'g'])]).1.shared.killed = true →
      errCount (streamRun 5 initTwoStream
          [(true, ['a', 'b', 'c']), (false, ['d', 'e', 'f', 'g'])]).2 = 1 ∧
      (streamRun 5 initTwoStream
          [(true, ['a', 'b', 'c']), (false, ['d', 'e', 'f', 'g'])]).1.shared.outputSent = 5) ∧
    StreamEvent.stageEnd "run" 0 ∈
      runStageEvents (streamRun 5 initTwoStream
        [(true, ['a', 'b', 'c']), (false, ['d', 'e', 'f', 'g'])]).2 0 :=
  ⟨by decide,
   (C2_streaming_output_budget 5 (by decide)
     [(true, ['a', 'b', 'c']), (false, ['d', 'e', 'f', 'g'])] 0).1,
   (C2_streaming_output_budget 5 (by decide)
     [(true, ['a', 'b', 'c']), (false, ['d', 'e', 'f', 'g'])] 0).2.1,
   (C2_streaming_output_budget 5 (by decide)
     [(true, ['a', 'b', 'c']), (false, ['d', 'e', 'f', 'g'])] 0).2.2.1,
   (C2_streaming_output_budget 5 (by decide)
     [(true, ['a', 'b', 'c']), (false, ['d', 'e', 'f', 'g'])] 0).2.2.2.2⟩

/-- Helper: `dropCR` only removes a character. -/
theorem dropCR_subset (l : List Char) : ∀ c ∈ dropCR l, c ∈ l := by
  intro c hc
  unfold dropCR at hc
  split_ifs at hc
  · exact List.dropLast_subset l hc
  · exact hc

/-- Helper: `dropCR` never lengthens. -/
theorem dropCR_length_le (l : List Char) : (dropCR l).length ≤ l.length := by
  unfold dropCR
  split_ifs
  · rw [List.length_dropLast]; omega
  · exact le_refl _

/-- Helper: scanner tokens never contain a newline byte. -/
theorem scanLinesAux_no_newline (rest : List Char) : ∀ (cur : List Char),
    '\n' ∉ cur → ∀ l ∈ scanLinesAux cur rest, '\n' ∉ l := by
  induction rest with
  | nil =>
    intro cur hcur l hl
    unfold scanLinesAux at hl
    split_ifs at hl
    · simp at hl
    · simp at hl
      subst hl
      intro habs
      exact hcur (by simpa using dropCR_subset _ _ habs)
  | cons c rest ih =>
    intro cur hcur l hl
    unfold scanLinesAux at hl
    split_ifs at hl with hc
    · rcases List.mem_cons.mp hl with hl | hl
      · subst hl
        intro habs
        exact hcur (by simpa using dropCR_subset _ _ habs)
      · exact ih [] (by simp) l hl
    · refine ih (c :: cur) ?_ l hl
      intro habs
      rcases List.mem_cons.mp habs with habs | habs
      · exact hc habs.symm
      · exact hcur habs

/-- Helper: the concatenated scanner tokens are never longer than the input. -/
theorem scanLinesAux_join_length (rest : List Char) : ∀ (cur : List Char),
    (scanLinesAux cur rest).join.length ≤ cur.length + rest.length := by
  induction rest with
  | nil =>
    intro cur
    unfold scanLinesAux
    split_ifs
    · simp
    · have h1 := dropCR_length_le cur.reverse
      simp at h1 ⊢
      omega
  | cons c rest ih =>
    intro cur
    unfold scanLinesAux
    split_ifs with hc
    · have h1 := dropCR_length_le cur.reverse
      have h2 := ih []
      simp at h1 h2 ⊢
      omega
    · have h2 := ih (c :: cur)
      simp at h2 ⊢
      omega

/-- Helper: every newline in the input strictly shrinks the concatenated
scanner tokens. -/
theorem scanLinesAux_join_length_lt (rest : List Char) : ∀ (cur : List Char),
    '\n' ∈ rest → (scanLinesAux cur rest).join.length < cur.length + rest.length := by
  induction rest with
  | nil =>
    intro cur h
    simp at h
  | cons c rest ih =>
    intro cur h
    unfold scanLinesAux
    split_ifs with hc
    · have h1 := dropCR_length_le cur.reverse
      have h2 := scanLinesAux_join_length rest []
      simp at h1 h2 ⊢
      omega
    · have hmem : '\n' ∈ rest := by
        rcases List.mem_cons.mp h with h | h
        · exact absurd h.symm hc
        · exact h
      have h2 := ih (c :: cur) hmem
      simp at h2 ⊢
      omega

/-- Helper: with the budget disabled (`outputBudget ≤ 0`, the "unlimited"
configuration), `streamOutput` forwards every scanned line unchanged. -/
theorem streamOutputLines_no_budget (budget : Int) (hb : budget ≤ 0) (st : StreamState)
    (stream : String) (lines : List (List Char)) :
    streamOutputLines budget st stream lines = (st, lines.map (.data stream)) := by
  induction lines with
  | nil => simp [streamOutputLines]
  | cons l rest ih =>
    unfold streamOutputLines streamLine
    rw [if_neg (by omega : ¬ budget > 0)]
    simp [ih]

/-- Helper: the payload concatenation of pure data events is the token
concatenation. -/
theorem dataPayloads_map (stream : String) (lines : List (List Char)) :
    dataPayloads (lines.map (.data stream)) = lines.join := by
  induction lines with
  | nil => simp [dataPayloads]
  | cons l rest ih => simp [dataPayloads, ih]

/-- C10 counterexample: the run stage writes the two bytes `hi` with no
newline; the driver forwards them as a single data event whose payload is
exactly those bytes, so the concatenation of data payloads IS byte-identical
to the bytes the process wrote — the claim's "never byte-identical"
consequence is false at this input (budget 1024, the default). -/
theorem C10_counterexample :
    dataPayloads (streamOutput 1024 { outputSent := 0, killed := false } "stdout"
        ['h', 'i']).2 = ['h', 'i'] := by decide

/-- C10 (amended): streaming output is forwarded line by line — with the
budget disabled the emitted events are exactly one data event per scanned
line (the scanner strips the terminating `\n`, a `\r` immediately before it,
and a trailing `\r` at end of input); no payload ever contains a newline
byte; the concatenation of the payloads is the concatenation of the scanned
lines, and it differs from the bytes the process wrote whenever they contain
a newline — but not always: for output with no newline byte the
concatenation can coincide with the written bytes. -/
theorem C10_line_splitting (budget : Int) (hb : budget ≤ 0) (st : StreamState)
    (stream : String) (input : List Char) :
    (streamOutput budget st stream input).2 =
      (scanLines input).map (.data stream) ∧
    (∀ l ∈ scanLines input, '\n' ∉ l) ∧
    dataPayloads (streamOutput budget st stream input).2 = (scanLines input).join ∧
    ('\n' ∈ input → dataPayloads (streamOutput budget st stream input).2 ≠ input) := by
  have hev : (streamOutput budget st stream input).2 =
      (scanLines input).map (.data stream) := by
    unfold streamOutput
    rw [streamOutputLines_no_budget budget hb]
  refine ⟨hev, scanLinesAux_no_newline input [] (by simp), ?_, ?_⟩
  · rw [hev, dataPayloads_map]
  · intro hnl habs
    rw [hev, dataPayloads_map] at habs
    have hlt := scanLinesAux_join_length_lt input [] hnl
    simp only [scanLines] at habs
    rw [habs] at hlt
    simp at hlt

/-- Witness for C10 at the input `a\nb` with the budget disabled. -/
theorem C10_witness :
    (0 : Int) ≤ 0 ∧
    (streamOutput 0 { outputSent := 0, killed := false } "stdout"
        ['a', '\n', 'b']).2 = (scanLines ['a', '\n', 'b']).map (.data "stdout") ∧
    dataPayloads (streamOutput 0 { outputSent := 0, killed := false } "stdout"
        ['a', '\n', 'b']).2 = (scanLines ['a', '\n', 'b']).join ∧
    ('\n' ∈ ['a', '\n', 'b'] →
      dataPayloads (streamOutput 0 { outputSent := 0, killed := false } "stdout"
        ['a', '\n', 'b']).2 ≠ ['a', '\n', 'b']) :=
  ⟨le_refl 0,
   (C10_line_splitting 0 (le_refl 0) { outputSent := 0, killed := false } "stdout"
     ['a', '\n', 'b']).1,
   (C10_line_splitting 0 (le_refl 0) { outputSent := 0, killed := false } "stdout"
     ['a', '\n', 'b']).2.2.1,
   (C10_line_splitting 0 (le_refl 0) { outputSent := 0, killed := false } "stdout"
     ['a', '\n', 'b']).2.2.2⟩

end CodeRunr
